import Mathlib

/-!
Verification development for the `grb_shader` galaxy catalog module
(`grb_shader/catalog.py`).

Python floats (numpy doubles) are modelled by the type `F` below: a finite
real number, one of the two infinities, or NaN.  The arithmetic operations
mirror IEEE-754 behaviour on those values as numpy implements it for the
expressions appearing in the source (propagating NaN, signed infinities from
division by zero, comparisons with NaN being false).  Signed zero is not
distinguished from zero; no expression in the translated code distinguishes
them.  Python strings are modelled as `List Char`.
-/

namespace GrbShader

/-- Model of a numpy double: a finite real value, `+inf`, `-inf`, or NaN. -/
inductive F where
  | fin : ℝ → F
  | inf : F
  | ninf : F
  | nan : F

namespace F

/-- IEEE-style negation. -/
noncomputable def fneg : F → F
  | fin a => fin (-a)
  | inf => ninf
  | ninf => inf
  | nan => nan

/-- IEEE-style addition: NaN propagates, `inf + (-inf)` is NaN. -/
noncomputable def fadd : F → F → F
  | nan, _ => nan
  | _, nan => nan
  | fin a, fin b => fin (a + b)
  | fin _, inf => inf
  | inf, fin _ => inf
  | fin _, ninf => ninf
  | ninf, fin _ => ninf
  | inf, inf => inf
  | ninf, ninf => ninf
  | inf, ninf => nan
  | ninf, inf => nan

/-- IEEE-style subtraction, as addition of the negation. -/
noncomputable def fsub (x y : F) : F := fadd x (fneg y)

/-- IEEE-style multiplication: NaN propagates, `0 * inf` is NaN. -/
noncomputable def fmul : F → F → F
  | nan, _ => nan
  | _, nan => nan
  | fin a, fin b => fin (a * b)
  | fin a, inf => if 0 < a then inf else if a < 0 then ninf else nan
  | fin a, ninf => if 0 < a then ninf else if a < 0 then inf else nan
  | inf, fin b => if 0 < b then inf else if b < 0 then ninf else nan
  | ninf, fin b => if 0 < b then ninf else if b < 0 then inf else nan
  | inf, inf => inf
  | inf, ninf => ninf
  | ninf, inf => ninf
  | ninf, ninf => inf

/-- IEEE-style division: NaN propagates, `x / 0` is a signed infinity for
`x ≠ 0` and NaN for `x = 0`, finite over infinite is zero, `inf / inf` is
NaN.  (Signed zero is not modelled, so `inf / 0` takes the `+0` branch.) -/
noncomputable def fdiv : F → F → F
  | nan, _ => nan
  | _, nan => nan
  | fin a, fin b =>
      if b = 0 then (if 0 < a then inf else if a < 0 then ninf else nan)
      else fin (a / b)
  | fin _, inf => fin 0
  | fin _, ninf => fin 0
  | inf, fin b => if b < 0 then ninf else inf
  | ninf, fin b => if b < 0 then inf else ninf
  | inf, inf => nan
  | inf, ninf => nan
  | ninf, inf => nan
  | ninf, ninf => nan

/-- Squaring, `x ** 2` on doubles, as used in the source. -/
noncomputable def fpow2 (x : F) : F := fmul x x

/-- IEEE-style `<=`: any comparison with NaN is false. -/
noncomputable def fle : F → F → Bool
  | nan, _ => false
  | _, nan => false
  | fin a, fin b => decide (a ≤ b)
  | fin _, inf => true
  | inf, fin _ => false
  | inf, inf => true
  | ninf, _ => true
  | fin _, ninf => false
  | inf, ninf => false

/-- Cosine, `np.cos`: NaN on non-finite input. -/
noncomputable def fcos : F → F
  | fin a => fin (Real.cos a)
  | _ => nan

/-- Sine, `np.sin`: NaN on non-finite input. -/
noncomputable def fsin : F → F
  | fin a => fin (Real.sin a)
  | _ => nan

/-- The constant `np.pi`. -/
noncomputable def fpi : F := fin Real.pi

/-- Degree-to-radian conversion, `np.deg2rad`: multiplication by `pi / 180`. -/
noncomputable def deg2rad (x : F) : F := fmul x (fin (Real.pi / 180))

/-- The NaN test `np.isnan`. -/
def isnan : F → Bool
  | nan => true
  | _ => false

end F

/-- Translation of the `Galaxy` dataclass fields (`catalog.py`).  The
`SkyCoord` center is represented by its right ascension and declination in
degrees, the only data `contains_point` reads from it. -/
structure Galaxy where
  name : String
  distance : F
  center_ra : F
  center_dec : F
  radius : F
  ratio : F
  angle : F := F.fin 0

/-- Derived field from `__post_init__`: `self.a = self.radius / 60`. -/
noncomputable def Galaxy.a (g : Galaxy) : F := F.fdiv g.radius (F.fin 60)

/-- Derived field from `__post_init__`: `self.b = self.a * self.ratio`. -/
noncomputable def Galaxy.b (g : Galaxy) : F := F.fmul g.a g.ratio

/-- Derived field from `__post_init__`: `self.area = np.pi * np.deg2rad(self.a) * np.deg2rad(self.b)`. -/
noncomputable def Galaxy.area (g : Galaxy) : F :=
  F.fmul (F.fmul F.fpi (F.deg2rad g.a)) (F.deg2rad g.b)

/-- Translation of `Galaxy.contains_point`. -/
noncomputable def Galaxy.contains_point (g : Galaxy) (ra dec : F) : Bool :=
  let cos_angle := F.fcos (F.fsub F.fpi (F.deg2rad g.angle))
  let sin_angle := F.fsin (F.fsub F.fpi (F.deg2rad g.angle))
  let x := F.fsub ra g.center_ra
  let y := F.fsub dec g.center_dec
  let x_t := F.fsub (F.fmul x cos_angle) (F.fmul y sin_angle)
  let y_t := F.fadd (F.fmul x sin_angle) (F.fmul y cos_angle)
  let r_norm := F.fadd (F.fdiv (F.fpow2 x_t) (F.fpow2 (F.fdiv g.a (F.fin 2))))
    (F.fdiv (F.fpow2 y_t) (F.fpow2 (F.fdiv g.b (F.fin 2))))
  if F.fle r_norm (F.fin 1) then true else false

/-- Translation of `LocalVolume`: the `Dict[str, Galaxy]` is modelled as an
insertion-ordered association list. -/
structure LocalVolume where
  galaxies : List (String × Galaxy)

/-- Loop body of `intercepts_galaxy`: scan in iteration order, return the
first match. -/
noncomputable def interceptsAux (ra dec : F) : List (String × Galaxy) → Bool × Option Galaxy
  | [] => (false, none)
  | p :: rest =>
      if p.2.contains_point ra dec then (true, some p.2) else interceptsAux ra dec rest

/-- Translation of `LocalVolume.intercepts_galaxy`. -/
noncomputable def LocalVolume.intercepts_galaxy (lv : LocalVolume) (ra dec : F) :
    Bool × Option Galaxy :=
  interceptsAux ra dec lv.galaxies

/-- Accumulation loop of `percentage_sky_cover`: `total_area` starts at `0`
and each galaxy whose `area` is not NaN is added, in iteration order. -/
noncomputable def totalAreaAux (acc : F) : List (String × Galaxy) → F
  | [] => acc
  | p :: rest =>
      totalAreaAux (if F.isnan p.2.area then acc else F.fadd acc p.2.area) rest

/-- Translation of `LocalVolume.percentage_sky_cover`. -/
noncomputable def LocalVolume.percentage_sky_cover (lv : LocalVolume) : F :=
  F.fmul (F.fdiv (totalAreaAux (F.fin 0) lv.galaxies) (F.fmul (F.fin 4) F.fpi)) (F.fin 100)

/-- Python's `str.split(sep)` for a one-character separator, on strings
modelled as `List Char`: split at every occurrence of `sep`. -/
def pysplit (sep : Char) : List Char → List (List Char)
  | [] => [[]]
  | c :: cs =>
      match pysplit sep cs with
      | [] => [[]]
      | h :: t => if c = sep then [] :: h :: t else (c :: h) :: t

/-- The arguments `parse_skycoord` passes to the astropy `SkyCoord`
constructor: the spliced right-ascension string, the spliced declination
string, the distance in Mpc, and the frame tag. -/
structure SkyCoordArgs where
  ra_string : List Char
  dec_str : List Char
  distance : ℝ
  frame : List Char

/-- Translation of `parse_skycoord`: choose `+` as the separator if present,
else `-`; `x.split(sign)` must produce exactly two pieces (otherwise the
tuple unpacking raises, modelled as `none`); splice the pieces into the
`HHhMMminSS.ss` and `±DD.MM` strings by pure string manipulation. -/
def parse_skycoord (x : List Char) (distance : ℝ) : Option SkyCoordArgs :=
  let sign : Char := if '+' ∈ x then '+' else '-'
  match pysplit sign x with
  | [ra, dec] =>
      some { ra_string :=
               ra.take 2 ++ ['h'] ++ (ra.drop 2).take 2 ++ ['m', 'i', 'n'] ++ ra.drop 4 ++ ['s'],
             dec_str := [sign] ++ dec.take 2 ++ ['.'] ++ dec.drop 2,
             distance := distance,
             frame := ['i', 'c', 'r', 's'] }
  | _ => none

/-- Modelled from the spec: the `numpy.random` global generator, which is not
part of this repository.  It is an abstract deterministic random source: a
state (a natural number), a seeding function mapping a seed to a state, and a
`uniform(low, high)` draw that returns a value and the successor state. -/
structure NumpyRandom where
  uniform : ℝ → ℝ → ℕ → ℝ × ℕ
  seedState : ℕ → ℕ

/-- Loop body of `sample_angles`: each galaxy in iteration order gets
`angle = np.random.uniform(0, 360)`, threading the random state. -/
noncomputable def sampleAnglesGo (rng : NumpyRandom) :
    List (String × Galaxy) → ℕ → List (String × Galaxy) × ℕ
  | [], s => ([], s)
  | (n, g) :: rest, s =>
      let v := (rng.uniform 0 360 s).1
      let s1 := (rng.uniform 0 360 s).2
      let r := sampleAnglesGo rng rest s1
      ((n, { g with angle := F.fin v }) :: r.1, r.2)

/-- Translation of `LocalVolume.sample_angles`: `if seed:` (Python truthiness,
so `None` and `0` both skip seeding) reseeds the global generator, then every
galaxy's angle is drawn in iteration order. -/
noncomputable def LocalVolume.sample_angles (rng : NumpyRandom) (lv : LocalVolume)
    (seed : Option ℕ) (s : ℕ) : LocalVolume × ℕ :=
  let s0 := match seed with
    | some k => if k ≠ 0 then rng.seedState k else s
    | none => s
  let r := sampleAnglesGo rng lv.galaxies s0
  (⟨r.1⟩, r.2)

/-- The error raised by attribute lookup misses. -/
inductive AttrError where
  | notFound : String → AttrError

/-- Translation of `LocalVolume.__getattr__`: if the name is a key of the
galaxy mapping return its galaxy, otherwise an `AttributeError` is raised
(the `super().__getattr__(name)` call on a plain `object` base raises). -/
def LocalVolume.getattr (lv : LocalVolume) (name : String) : Except AttrError Galaxy :=
  match lv.galaxies.find? (fun p => p.1 = name) with
  | some p => Except.ok p.2
  | none => Except.error (AttrError.notFound name)

/-- The normalized radius exactly as the specification words it: cos/sin of
the rotation angle `pi - rad(angle)`; offsets `x = ra - center.ra_deg` and
`y = dec - center.dec_deg`; rotated coordinates `x_t = x cos - y sin` and
`y_t = x sin + y cos`; normalized radius `r = x_t^2/(a/2)^2 + y_t^2/(b/2)^2`.
Written from the spec's words, to be compared with the source translation
`Galaxy.contains_point`. -/
noncomputable def specNormRadius (g : Galaxy) (ra dec : F) : F :=
  let c := F.fcos (F.fsub F.fpi (F.deg2rad g.angle))
  let s := F.fsin (F.fsub F.fpi (F.deg2rad g.angle))
  let x := F.fsub ra g.center_ra
  let y := F.fsub dec g.center_dec
  let x_t := F.fsub (F.fmul x c) (F.fmul y s)
  let y_t := F.fadd (F.fmul x s) (F.fmul y c)
  F.fadd (F.fdiv (F.fpow2 x_t) (F.fpow2 (F.fdiv g.a (F.fin 2))))
    (F.fdiv (F.fpow2 y_t) (F.fpow2 (F.fdiv g.b (F.fin 2))))

/-- The value of a float if finite, and `0` otherwise. -/
def F.toReal : F → ℝ
  | fin a => a
  | _ => 0

/-- The sum of `area` over all galaxies whose area is not NaN, as a real
number.  Written from the spec's words, to be compared with the accumulation
loop `totalAreaAux`. -/
noncomputable def specAreaSum : List (String × Galaxy) → ℝ
  | [] => 0
  | p :: rest => (if F.isnan p.2.area then 0 else F.toReal p.2.area) + specAreaSum rest

namespace F

@[simp] theorem fadd_nan_left (x : F) : fadd nan x = nan := by cases x <;> rfl

@[simp] theorem fadd_nan_right (x : F) : fadd x nan = nan := by cases x <;> rfl

@[simp] theorem fneg_nan : fneg nan = nan := rfl

@[simp] theorem fsub_nan_left (x : F) : fsub nan x = nan := by
  cases x <;> simp [fsub, fneg]

@[simp] theorem fsub_nan_right (x : F) : fsub x nan = nan := by
  cases x <;> simp [fsub, fneg]

@[simp] theorem fmul_nan_left (x : F) : fmul nan x = nan := by cases x <;> rfl

@[simp] theorem fmul_nan_right (x : F) : fmul x nan = nan := by cases x <;> rfl

@[simp] theorem fdiv_nan_left (x : F) : fdiv nan x = nan := by cases x <;> rfl

@[simp] theorem fdiv_nan_right (x : F) : fdiv x nan = nan := by cases x <;> rfl

@[simp] theorem fpow2_nan : fpow2 nan = nan := rfl

@[simp] theorem fle_nan_left (x : F) : fle nan x = false := by cases x <;> rfl

@[simp] theorem fle_nan_right (x : F) : fle x nan = false := by cases x <;> rfl

@[simp] theorem fcos_nan : fcos nan = nan := rfl

@[simp] theorem fsin_nan : fsin nan = nan := rfl

@[simp] theorem deg2rad_nan : deg2rad nan = nan := rfl

@[simp] theorem isnan_nan : isnan nan = true := rfl

@[simp] theorem isnan_fin (a : ℝ) : isnan (fin a) = false := rfl

@[simp] theorem isnan_inf : isnan inf = false := rfl

@[simp] theorem isnan_ninf : isnan ninf = false := rfl

@[simp] theorem fadd_fin (a b : ℝ) : fadd (fin a) (fin b) = fin (a + b) := rfl

@[simp] theorem fneg_fin (a : ℝ) : fneg (fin a) = fin (-a) := rfl

@[simp] theorem fsub_fin (a b : ℝ) : fsub (fin a) (fin b) = fin (a - b) := by
  simp [fsub, sub_eq_add_neg]

@[simp] theorem fmul_fin (a b : ℝ) : fmul (fin a) (fin b) = fin (a * b) := rfl

theorem fdiv_fin (a : ℝ) {b : ℝ} (h : b ≠ 0) : fdiv (fin a) (fin b) = fin (a / b) := by
  simp [fdiv, h]

@[simp] theorem fpow2_fin (a : ℝ) : fpow2 (fin a) = fin (a ^ 2) := by
  simp [fpow2, sq]

@[simp] theorem fle_fin (a b : ℝ) : fle (fin a) (fin b) = decide (a ≤ b) := rfl

@[simp] theorem fcos_fin (a : ℝ) : fcos (fin a) = fin (Real.cos a) := rfl

@[simp] theorem fsin_fin (a : ℝ) : fsin (fin a) = fin (Real.sin a) := rfl

@[simp] theorem deg2rad_fin (a : ℝ) : deg2rad (fin a) = fin (a * (Real.pi / 180)) := rfl

theorem fpi_def : fpi = fin Real.pi := rfl

@[simp] theorem fneg_fneg (x : F) : fneg (fneg x) = x := by
  cases x <;> simp [fneg]

theorem fneg_fadd (x y : F) : fneg (fadd x y) = fadd (fneg x) (fneg y) := by
  cases x <;> cases y <;> simp [fadd, fneg, neg_add, add_comm]

theorem fmul_comm (x y : F) : fmul x y = fmul y x := by
  cases x <;> cases y <;> simp [fmul, mul_comm]

theorem fmul_fneg_right (x y : F) : fmul x (fneg y) = fneg (fmul x y) := by
  cases x <;> cases y <;>
    simp only [fmul, fneg, neg_neg, mul_neg] <;>
    split_ifs with h1 h2 <;>
    simp_all [fneg] <;> linarith

theorem fmul_fneg_left (x y : F) : fmul (fneg x) y = fneg (fmul x y) := by
  rw [fmul_comm, fmul_fneg_right, fmul_comm]

theorem fpow2_fneg (x : F) : fpow2 (fneg x) = fpow2 x := by
  rw [fpow2, fpow2, fmul_fneg_right, fmul_fneg_left, fneg_fneg]

theorem fsub_fneg_fneg (x y : F) : fsub (fneg x) (fneg y) = fneg (fsub x y) := by
  rw [fsub, fsub, fneg_fadd]

end F

theorem ite_eq_self_of_bool (b : Bool) : (if b = true then true else false) = b := by
  cases b <;> simp

/-- The source's `if r_norm <= 1: return True else: return False` is the
comparison itself, with the normalized radius as the spec words it. -/
theorem contains_point_eq_fle (g : Galaxy) (ra dec : F) :
    g.contains_point ra dec = F.fle (specNormRadius g ra dec) (F.fin 1) := by
  rw [Galaxy.contains_point, specNormRadius]
  exact ite_eq_self_of_bool _

/-- Evaluation of the normalized radius on finite inputs with nonzero axes. -/
theorem specNormRadius_fin (g : Galaxy) {cra cdec θ av bv : ℝ} (ra dec : ℝ)
    (h1 : g.center_ra = F.fin cra) (h2 : g.center_dec = F.fin cdec)
    (h3 : g.angle = F.fin θ) (h4 : g.a = F.fin av) (h5 : g.b = F.fin bv)
    (hav : av ≠ 0) (hbv : bv ≠ 0) :
    specNormRadius g (F.fin ra) (F.fin dec) =
      F.fin (((ra - cra) * Real.cos (Real.pi - θ * (Real.pi / 180))
              - (dec - cdec) * Real.sin (Real.pi - θ * (Real.pi / 180))) ^ 2 / (av / 2) ^ 2
           + ((ra - cra) * Real.sin (Real.pi - θ * (Real.pi / 180))
              + (dec - cdec) * Real.cos (Real.pi - θ * (Real.pi / 180))) ^ 2 / (bv / 2) ^ 2) := by
  have h2ne : (2:ℝ) ≠ 0 := two_ne_zero
  have hane : (av / 2) ^ 2 ≠ 0 := pow_ne_zero _ (div_ne_zero hav h2ne)
  have hbne : (bv / 2) ^ 2 ≠ 0 := pow_ne_zero _ (div_ne_zero hbv h2ne)
  rw [specNormRadius]
  simp only [h1, h2, h3, h4, h5, F.fpi_def, F.deg2rad_fin, F.fsub_fin, F.fcos_fin,
    F.fsin_fin, F.fmul_fin, F.fadd_fin, F.fpow2_fin]
  rw [F.fdiv_fin _ h2ne, F.fdiv_fin _ h2ne]
  simp only [F.fpow2_fin, F.fsub_fin, F.fmul_fin]
  rw [F.fdiv_fin _ hane, F.fdiv_fin _ hbne, F.fadd_fin]

/-- Containment on finite data with nonzero axes is the real-arithmetic
point-in-rotated-ellipse test. -/
theorem contains_point_fin_true_iff (g : Galaxy) {cra cdec θ av bv : ℝ} (ra dec : ℝ)
    (h1 : g.center_ra = F.fin cra) (h2 : g.center_dec = F.fin cdec)
    (h3 : g.angle = F.fin θ) (h4 : g.a = F.fin av) (h5 : g.b = F.fin bv)
    (hav : av ≠ 0) (hbv : bv ≠ 0) :
    (g.contains_point (F.fin ra) (F.fin dec) = true) ↔
      ((ra - cra) * Real.cos (Real.pi - θ * (Real.pi / 180))
          - (dec - cdec) * Real.sin (Real.pi - θ * (Real.pi / 180))) ^ 2 / (av / 2) ^ 2
        + ((ra - cra) * Real.sin (Real.pi - θ * (Real.pi / 180))
          + (dec - cdec) * Real.cos (Real.pi - θ * (Real.pi / 180))) ^ 2 / (bv / 2) ^ 2 ≤ 1 := by
  rw [contains_point_eq_fle, specNormRadius_fin g ra dec h1 h2 h3 h4 h5 hav hbv]
  simp

/-- A concrete galaxy used to instantiate hypotheses: unit axes, zero angle,
center at the origin. -/
noncomputable def unitGalaxy : Galaxy :=
  { name := "unit", distance := F.fin 1, center_ra := F.fin 0, center_dec := F.fin 0,
    radius := F.fin 60, ratio := F.fin 1, angle := F.fin 0 }

theorem unitGalaxy_a : unitGalaxy.a = F.fin 1 := by
  rw [Galaxy.a]
  show F.fdiv (F.fin 60) (F.fin 60) = F.fin 1
  rw [F.fdiv_fin _ (by norm_num : (60:ℝ) ≠ 0)]
  norm_num

theorem unitGalaxy_b : unitGalaxy.b = F.fin 1 := by
  rw [Galaxy.b, unitGalaxy_a]
  show F.fmul (F.fin 1) (F.fin 1) = F.fin 1
  simp

theorem unitGalaxy_contains : unitGalaxy.contains_point (F.fin 0) (F.fin 0) = true := by
  rw [contains_point_fin_true_iff unitGalaxy 0 0 rfl rfl rfl unitGalaxy_a unitGalaxy_b
    one_ne_zero one_ne_zero]
  norm_num

theorem deg2rad_posinf : F.deg2rad F.inf = F.inf := by
  have h : 0 < Real.pi / 180 := by positivity
  simp [F.deg2rad, F.fmul, h]

theorem deg2rad_neginf : F.deg2rad F.ninf = F.ninf := by
  have h : 0 < Real.pi / 180 := by positivity
  simp [F.deg2rad, F.fmul, h]

theorem fcos_pi_sub_add_180 (t : ℝ) :
    F.fcos (F.fsub F.fpi (F.deg2rad (F.fin (t + 180)))) =
      F.fneg (F.fcos (F.fsub F.fpi (F.deg2rad (F.fin t)))) := by
  simp only [F.deg2rad_fin, F.fpi_def, F.fsub_fin, F.fcos_fin, F.fneg_fin]
  have h1 : Real.pi - (t + 180) * (Real.pi / 180) = -(t * (Real.pi / 180)) := by
    field_simp
    ring
  rw [h1, Real.cos_neg, Real.cos_pi_sub, neg_neg]

theorem fsin_pi_sub_add_180 (t : ℝ) :
    F.fsin (F.fsub F.fpi (F.deg2rad (F.fin (t + 180)))) =
      F.fneg (F.fsin (F.fsub F.fpi (F.deg2rad (F.fin t)))) := by
  simp only [F.deg2rad_fin, F.fpi_def, F.fsub_fin, F.fsin_fin, F.fneg_fin]
  have h1 : Real.pi - (t + 180) * (Real.pi / 180) = -(t * (Real.pi / 180)) := by
    field_simp
    ring
  rw [h1, Real.sin_neg, Real.sin_pi_sub]

/-- Claim C1: `Galaxy.contains_point(ra, dec)` computes exactly the
spec's formulas — cos/sin of `pi - rad(angle)`, offsets from the center,
rotated coordinates, normalized radius `r = x_t^2/(a/2)^2 + y_t^2/(b/2)^2` —
and returns true iff `r <= 1` under the float comparison; on finite data
with nonzero axes this is exactly the real-arithmetic test `r <= 1`, with
the boundary `r = 1` inside. -/
theorem c1_contains_point_exact_formula :
    (∀ (g : Galaxy) (ra dec : F),
        g.contains_point ra dec = F.fle (specNormRadius g ra dec) (F.fin 1)) ∧
    (∀ (g : Galaxy) (cra cdec θ av bv ra dec : ℝ),
        g.center_ra = F.fin cra → g.center_dec = F.fin cdec → g.angle = F.fin θ →
        g.a = F.fin av → g.b = F.fin bv → av ≠ 0 → bv ≠ 0 →
        ((g.contains_point (F.fin ra) (F.fin dec) = true) ↔
          ((ra - cra) * Real.cos (Real.pi - θ * (Real.pi / 180))
              - (dec - cdec) * Real.sin (Real.pi - θ * (Real.pi / 180))) ^ 2 / (av / 2) ^ 2
            + ((ra - cra) * Real.sin (Real.pi - θ * (Real.pi / 180))
              + (dec - cdec) * Real.cos (Real.pi - θ * (Real.pi / 180))) ^ 2 / (bv / 2) ^ 2
            ≤ 1)) :=
  ⟨contains_point_eq_fle,
   fun g _ _ _ _ _ ra dec h1 h2 h3 h4 h5 hav hbv =>
     contains_point_fin_true_iff g ra dec h1 h2 h3 h4 h5 hav hbv⟩

theorem c1_contains_point_exact_formula_witness :
    unitGalaxy.center_ra = F.fin 0 ∧ unitGalaxy.a = F.fin 1 ∧ unitGalaxy.b = F.fin 1 ∧
    (1:ℝ) ≠ 0 ∧
    ((unitGalaxy.contains_point (F.fin 0) (F.fin 0) = true) ↔
      ((0 - 0) * Real.cos (Real.pi - 0 * (Real.pi / 180))
          - (0 - 0) * Real.sin (Real.pi - 0 * (Real.pi / 180))) ^ 2 / ((1:ℝ) / 2) ^ 2
        + ((0 - 0) * Real.sin (Real.pi - 0 * (Real.pi / 180))
          + (0 - 0) * Real.cos (Real.pi - 0 * (Real.pi / 180))) ^ 2 / ((1:ℝ) / 2) ^ 2
        ≤ 1) :=
  ⟨rfl, unitGalaxy_a, unitGalaxy_b, one_ne_zero,
   c1_contains_point_exact_formula.2 unitGalaxy 0 0 0 1 1 0 0 rfl rfl rfl
     unitGalaxy_a unitGalaxy_b one_ne_zero one_ne_zero⟩

theorem a_angle_update (g : Galaxy) (e : F) : Galaxy.a { g with angle := e } = g.a := rfl

theorem b_angle_update (g : Galaxy) (e : F) : Galaxy.b { g with angle := e } = g.b := rfl

/-- Claim C10: `contains_point` is invariant under replacing `angle` by
`angle + 180`: the rotation enters only through cos and sin of
`pi - rad(angle)`, both of which are negated, and the normalized radius is
unchanged under negating both rotated coordinates.  This holds for every
galaxy and every query point, NaN and infinite fields included. -/
theorem c10_angle_plus_180_invariant (g : Galaxy) (ra dec : F) :
    Galaxy.contains_point { g with angle := F.fadd g.angle (F.fin 180) } ra dec =
      g.contains_point ra dec := by
  rw [contains_point_eq_fle, contains_point_eq_fle]
  have hsame : specNormRadius { g with angle := F.fadd g.angle (F.fin 180) } ra dec =
      specNormRadius g ra dec := by
    cases hA : g.angle with
    | fin t =>
        rw [specNormRadius, specNormRadius]
        dsimp only
        rw [hA, F.fadd_fin, fcos_pi_sub_add_180, fsin_pi_sub_add_180,
          F.fmul_fneg_right, F.fmul_fneg_right, F.fmul_fneg_right, F.fmul_fneg_right,
          F.fsub_fneg_fneg, ← F.fneg_fadd, F.fpow2_fneg, F.fpow2_fneg,
          a_angle_update, b_angle_update]
    | inf =>
        rw [specNormRadius, specNormRadius]
        dsimp only
        rw [hA]
        have : F.fadd F.inf (F.fin 180) = F.inf := rfl
        rw [this, a_angle_update, b_angle_update]
    | ninf =>
        rw [specNormRadius, specNormRadius]
        dsimp only
        rw [hA]
        have : F.fadd F.ninf (F.fin 180) = F.ninf := rfl
        rw [this, a_angle_update, b_angle_update]
    | nan =>
        rw [specNormRadius, specNormRadius]
        dsimp only
        rw [hA]
        have : F.fadd F.nan (F.fin 180) = F.nan := rfl
        rw [this, a_angle_update, b_angle_update]
  rw [hsame]

theorem contains_false_of_a_nan (g : Galaxy) (ra dec : F) (h : g.a = F.nan) :
    g.contains_point ra dec = false := by
  rw [contains_point_eq_fle, specNormRadius]
  simp [h]

theorem contains_false_of_b_nan (g : Galaxy) (ra dec : F) (h : g.b = F.nan) :
    g.contains_point ra dec = false := by
  rw [contains_point_eq_fle, specNormRadius]
  simp [h]

theorem fmul_eq_fin {x y : F} {c : ℝ} (h : F.fmul x y = F.fin c) :
    ∃ p q, x = F.fin p ∧ y = F.fin q ∧ p * q = c := by
  cases x <;> cases y <;> simp [F.fmul] at h <;> try split_ifs at h
  exact ⟨_, _, rfl, rfl, h⟩

theorem fmul_eq_nan {x y : F} (h : F.fmul x y = F.nan) :
    x = F.nan ∨ y = F.nan ∨ (x = F.fin 0 ∧ (y = F.inf ∨ y = F.ninf)) ∨
      ((x = F.inf ∨ x = F.ninf) ∧ y = F.fin 0) := by
  cases x <;> cases y <;> simp_all [F.fmul] <;> split_ifs at h <;>
    simp_all <;> linarith

theorem fmul_fin_eq_inf {x : F} {k : ℝ} (hk : 0 < k) (h : F.fmul x (F.fin k) = F.inf) :
    x = F.inf := by
  cases x <;> simp_all [F.fmul]

theorem fmul_fin_eq_ninf {x : F} {k : ℝ} (hk : 0 < k) (h : F.fmul x (F.fin k) = F.ninf) :
    x = F.ninf := by
  cases x <;> simp_all [F.fmul]

theorem deg2rad_eq_nan {x : F} (h : F.deg2rad x = F.nan) : x = F.nan := by
  rw [F.deg2rad] at h
  rcases fmul_eq_nan h with h1 | h1 | ⟨h1, h2 | h2⟩ | ⟨h1, h2⟩
  · exact h1
  · exact absurd h1 (by simp)
  · exact absurd h2 (by simp)
  · exact absurd h2 (by simp)
  · rw [F.fin.injEq] at h2
    exact absurd h2.symm (by positivity)

theorem deg2rad_eq_fin {x : F} {c : ℝ} (h : F.deg2rad x = F.fin c) :
    ∃ p, x = F.fin p := by
  rw [F.deg2rad] at h
  rcases fmul_eq_fin h with ⟨p, q, hp, _, _⟩
  exact ⟨p, hp⟩

theorem deg2rad_eq_inf {x : F} (h : F.deg2rad x = F.inf) : x = F.inf := by
  rw [F.deg2rad] at h
  exact fmul_fin_eq_inf (by positivity) h

theorem deg2rad_eq_ninf {x : F} (h : F.deg2rad x = F.ninf) : x = F.ninf := by
  rw [F.deg2rad] at h
  exact fmul_fin_eq_ninf (by positivity) h

/-- An `area` that is NaN forces `a` or `b` to be NaN: the derived fields
`a = radius / 60` and `b = a * ratio` never produce the `0 * inf` NaN inside
the area product without one factor being NaN already. -/
theorem area_nan_imp (g : Galaxy) (h : g.area = F.nan) : g.a = F.nan ∨ g.b = F.nan := by
  rw [Galaxy.area] at h
  rcases fmul_eq_nan h with h1 | h1 | ⟨h1, h2 | h2⟩ | ⟨h1, h2⟩
  · -- `pi * rad(a)` is NaN, and `pi` is finite, so `rad(a)` then `a` is NaN
    rcases fmul_eq_nan h1 with g1 | g1 | ⟨g1, _⟩ | ⟨g1 | g1, _⟩
    · exact absurd g1 (by simp [F.fpi_def])
    · exact Or.inl (deg2rad_eq_nan g1)
    · rw [F.fpi_def, F.fin.injEq] at g1
      exact absurd g1 Real.pi_ne_zero
    · exact absurd g1 (by simp [F.fpi_def])
    · exact absurd g1 (by simp [F.fpi_def])
  · exact Or.inr (deg2rad_eq_nan h1)
  · -- `pi * rad(a) = 0` and `rad(b) = inf`: impossible, since then `a = 0`
    -- while `b = 0 * ratio` would have to be infinite
    exfalso
    rcases fmul_eq_fin h1 with ⟨p, q, hp, hq, hpq⟩
    rw [F.fpi_def, F.fin.injEq] at hp
    have hq0 : q = 0 := by
      rcases mul_eq_zero.mp hpq with h0 | h0
      · rw [← hp] at h0
        exact absurd h0 Real.pi_ne_zero
      · exact h0
    rw [hq0] at hq
    rcases deg2rad_eq_fin hq with ⟨p', hp'⟩
    have hp'0 : p' = 0 := by
      rw [hp', F.deg2rad, F.fmul_fin, F.fin.injEq] at hq
      rcases mul_eq_zero.mp hq with h0 | h0
      · exact h0
      · exact absurd h0 (by positivity)
    have hb : g.b = F.inf := deg2rad_eq_inf h2
    rw [hp'0] at hp'
    rw [Galaxy.b, hp'] at hb
    cases hr : g.ratio <;> rw [hr] at hb <;> simp [F.fmul] at hb
  · exfalso
    rcases fmul_eq_fin h1 with ⟨p, q, hp, hq, hpq⟩
    rw [F.fpi_def, F.fin.injEq] at hp
    have hq0 : q = 0 := by
      rcases mul_eq_zero.mp hpq with h0 | h0
      · rw [← hp] at h0
        exact absurd h0 Real.pi_ne_zero
      · exact h0
    rw [hq0] at hq
    rcases deg2rad_eq_fin hq with ⟨p', hp'⟩
    have hp'0 : p' = 0 := by
      rw [hp', F.deg2rad, F.fmul_fin, F.fin.injEq] at hq
      rcases mul_eq_zero.mp hq with h0 | h0
      · exact h0
      · exact absurd h0 (by positivity)
    have hb : g.b = F.ninf := deg2rad_eq_ninf h2
    rw [hp'0] at hp'
    rw [Galaxy.b, hp'] at hb
    cases hr : g.ratio <;> rw [hr] at hb <;> simp [F.fmul] at hb
  · -- `rad(b) = 0` forces `b` finite; but `pi * rad(a)` infinite forces `a`
    -- infinite, and then `b = a * ratio` cannot be finite
    exfalso
    rcases fmul_eq_fin h2 with ⟨p, q, hpb, hq, hpq⟩
    have ha : g.a = F.inf ∨ g.a = F.ninf := by
      rcases h1 with h1 | h1
      · rw [F.fpi_def, F.fmul_comm] at h1
        exact Or.inl (deg2rad_eq_inf (fmul_fin_eq_inf Real.pi_pos h1))
      · rw [F.fpi_def, F.fmul_comm] at h1
        exact Or.inr (deg2rad_eq_ninf (fmul_fin_eq_ninf Real.pi_pos h1))
    rw [Galaxy.b] at hpb
    rcases ha with ha | ha <;> rw [ha] at hpb <;> cases hr : g.ratio <;>
      rw [hr] at hpb <;> simp [F.fmul] at hpb <;> split_ifs at hpb

theorem totalAreaAux_skip (n : String) (g : Galaxy) (hg : g.area = F.nan) :
    ∀ (pre post : List (String × Galaxy)) (acc : F),
      totalAreaAux acc (pre ++ (n, g) :: post) = totalAreaAux acc (pre ++ post) := by
  intro pre
  induction pre with
  | nil => intro post acc; simp [totalAreaAux, hg]
  | cons p pre ih =>
      intro post acc
      simp only [List.cons_append, totalAreaAux]
      exact ih post _

/-- A concrete galaxy whose radius column held the missing sentinel, so its
radius is NaN. -/
noncomputable def nanGalaxy : Galaxy :=
  { name := "missing", distance := F.fin 1, center_ra := F.fin 0, center_dec := F.fin 0,
    radius := F.nan, ratio := F.fin 1, angle := F.fin 0 }

/-- Claim C2: a galaxy whose `a`, `b` or `area` is NaN (e.g. one built from a
row whose radius column held the missing sentinel, which makes all three NaN)
never reports containment for any query point, and `percentage_sky_cover`
skips it, so it contributes exactly 0 to the accumulated area. -/
theorem c2_nan_galaxy_excluded :
    (∀ (g : Galaxy) (ra dec : F),
        g.a = F.nan ∨ g.b = F.nan ∨ g.area = F.nan → g.contains_point ra dec = false) ∧
    (∀ g : Galaxy, g.radius = F.nan → g.a = F.nan ∧ g.b = F.nan ∧ g.area = F.nan) ∧
    (∀ (pre post : List (String × Galaxy)) (n : String) (g : Galaxy), g.area = F.nan →
        LocalVolume.percentage_sky_cover ⟨pre ++ (n, g) :: post⟩ =
          LocalVolume.percentage_sky_cover ⟨pre ++ post⟩) := by
  refine ⟨?_, ?_, ?_⟩
  · intro g ra dec h
    rcases h with h | h | h
    · exact contains_false_of_a_nan g ra dec h
    · exact contains_false_of_b_nan g ra dec h
    · rcases area_nan_imp g h with h | h
      · exact contains_false_of_a_nan g ra dec h
      · exact contains_false_of_b_nan g ra dec h
  · intro g h
    have ha : g.a = F.nan := by rw [Galaxy.a, h]; simp
    have hb : g.b = F.nan := by rw [Galaxy.b, ha]; simp
    refine ⟨ha, hb, ?_⟩
    rw [Galaxy.area, ha, hb]
    simp
  · intro pre post n g hg
    rw [LocalVolume.percentage_sky_cover, LocalVolume.percentage_sky_cover,
      totalAreaAux_skip n g hg pre post]

theorem c2_nan_galaxy_excluded_witness :
    nanGalaxy.radius = F.nan ∧ nanGalaxy.a = F.nan ∧ nanGalaxy.area = F.nan ∧
    nanGalaxy.contains_point (F.fin 0) (F.fin 0) = false ∧
    LocalVolume.percentage_sky_cover ⟨[("missing", nanGalaxy)]⟩ =
      LocalVolume.percentage_sky_cover ⟨[]⟩ := by
  have h1 : nanGalaxy.radius = F.nan := rfl
  have h2 := c2_nan_galaxy_excluded.2.1 nanGalaxy h1
  refine ⟨h1, h2.1, h2.2.2, ?_, ?_⟩
  · exact c2_nan_galaxy_excluded.1 nanGalaxy (F.fin 0) (F.fin 0) (Or.inl h2.1)
  · have h3 := c2_nan_galaxy_excluded.2.2 [] [] ("missing") nanGalaxy h2.2.2
    simpa using h3

theorem interceptsAux_eq_find (ra dec : F) (l : List (String × Galaxy)) :
    interceptsAux ra dec l =
      match l.find? (fun p => p.2.contains_point ra dec) with
      | some p => (true, some p.2)
      | none => (false, none) := by
  induction l with
  | nil => rfl
  | cons p rest ih =>
      by_cases h : p.2.contains_point ra dec = true
      · simp [interceptsAux, List.find?, h]
      · simp only [Bool.not_eq_true] at h
        simp [interceptsAux, List.find?, h, ih]

/-- Claim C3: `intercepts_galaxy` scans the mapping in insertion order and
returns `(true, g)` for the first galaxy containing the point (so of two
overlapping galaxies the one inserted earlier wins), and `(false, none)` if
no galaxy contains it. -/
theorem c3_intercepts_first_match :
    (∀ (lv : LocalVolume) (ra dec : F),
        lv.intercepts_galaxy ra dec =
          match lv.galaxies.find? (fun p => p.2.contains_point ra dec) with
          | some p => (true, some p.2)
          | none => (false, none)) ∧
    (∀ (n1 n2 : String) (g1 g2 : Galaxy) (ra dec : F),
        g1.contains_point ra dec = true →
        LocalVolume.intercepts_galaxy ⟨[(n1, g1), (n2, g2)]⟩ ra dec = (true, some g1)) := by
  constructor
  · intro lv ra dec
    exact interceptsAux_eq_find ra dec lv.galaxies
  · intro n1 n2 g1 g2 ra dec h
    simp [LocalVolume.intercepts_galaxy, interceptsAux, h]

theorem c3_intercepts_first_match_witness :
    unitGalaxy.contains_point (F.fin 0) (F.fin 0) = true ∧
    LocalVolume.intercepts_galaxy ⟨[("u1", unitGalaxy), ("u2", unitGalaxy)]⟩
      (F.fin 0) (F.fin 0) = (true, some unitGalaxy) :=
  ⟨unitGalaxy_contains,
   c3_intercepts_first_match.2 ("u1") ("u2") unitGalaxy unitGalaxy (F.fin 0) (F.fin 0)
     unitGalaxy_contains⟩

theorem totalAreaAux_fin (l : List (String × Galaxy)) :
    ∀ r : ℝ, (∀ p ∈ l, (∃ x, p.2.area = F.fin x) ∨ p.2.area = F.nan) →
      totalAreaAux (F.fin r) l = F.fin (r + specAreaSum l) := by
  induction l with
  | nil => intro r _; simp [totalAreaAux, specAreaSum]
  | cons p rest ih =>
      intro r h
      have hp := h p (List.mem_cons_self p rest)
      have hrest : ∀ q ∈ rest, (∃ x, q.2.area = F.fin x) ∨ q.2.area = F.nan :=
        fun q hq => h q (List.mem_cons_of_mem p hq)
      rcases hp with ⟨x, hx⟩ | hx
      · rw [totalAreaAux, specAreaSum, hx]
        rw [if_neg (by simp), if_neg (by simp)]
        rw [F.fadd_fin, ih (r + x) hrest]
        simp only [F.toReal]
        congr 1
        ring
      · rw [totalAreaAux, specAreaSum, hx]
        rw [if_pos (by simp), if_pos (by simp)]
        rw [ih r hrest]
        congr 1
        ring

/-- A concrete galaxy large enough that its nominal coverage exceeds the
whole sky. -/
noncomputable def bigGalaxy : Galaxy :=
  { name := "big", distance := F.fin 1, center_ra := F.fin 0, center_dec := F.fin 0,
    radius := F.fin 10800, ratio := F.fin 1, angle := F.fin 0 }

theorem bigGalaxy_area : bigGalaxy.area = F.fin (Real.pi ^ 3) := by
  have ha : bigGalaxy.a = F.fin 180 := by
    rw [Galaxy.a]
    show F.fdiv (F.fin 10800) (F.fin 60) = F.fin 180
    rw [F.fdiv_fin _ (by norm_num : (60:ℝ) ≠ 0)]
    norm_num
  have hb : bigGalaxy.b = F.fin 180 := by
    rw [Galaxy.b, ha]
    show F.fmul (F.fin 180) (F.fin 1) = F.fin 180
    simp
  rw [Galaxy.area, ha, hb]
  simp only [F.deg2rad_fin, F.fpi_def, F.fmul_fin]
  congr 1
  ring

/-- Claim C4: `percentage_sky_cover` is 100 times the sum of the non-NaN
areas divided by `4 * pi`; it is 0 on an empty catalog, `100 * A / (4 pi)`
for one galaxy of finite area `A`, and it is not capped at 100. -/
theorem c4_percentage_sky_cover :
    (∀ lv : LocalVolume,
        (∀ p ∈ lv.galaxies, (∃ x, p.2.area = F.fin x) ∨ p.2.area = F.nan) →
        lv.percentage_sky_cover =
          F.fin (100 * specAreaSum lv.galaxies / (4 * Real.pi))) ∧
    (LocalVolume.percentage_sky_cover ⟨[]⟩ = F.fin 0) ∧
    (∀ (n : String) (g : Galaxy) (A : ℝ), g.area = F.fin A →
        LocalVolume.percentage_sky_cover ⟨[(n, g)]⟩ =
          F.fin (100 * A / (4 * Real.pi))) ∧
    (∃ (lv : LocalVolume) (x : ℝ), lv.percentage_sky_cover = F.fin x ∧ 100 < x) := by
  have h4pi : (4:ℝ) * Real.pi ≠ 0 := by positivity
  have gen : ∀ lv : LocalVolume,
      (∀ p ∈ lv.galaxies, (∃ x, p.2.area = F.fin x) ∨ p.2.area = F.nan) →
      lv.percentage_sky_cover =
        F.fin (100 * specAreaSum lv.galaxies / (4 * Real.pi)) := by
    intro lv h
    rw [LocalVolume.percentage_sky_cover, totalAreaAux_fin lv.galaxies 0 h]
    rw [show F.fmul (F.fin 4) F.fpi = F.fin (4 * Real.pi) from rfl]
    rw [F.fdiv_fin _ h4pi, F.fmul_fin]
    congr 1
    ring
  refine ⟨gen, ?_, ?_, ?_⟩
  · have h0 := gen ⟨[]⟩ (by simp)
    rw [h0]
    norm_num [specAreaSum]
  · intro n g A hA
    have h1 := gen ⟨[(n, g)]⟩ (by simp [hA])
    rw [h1]
    congr 1
    simp [specAreaSum, hA, F.toReal]
  · refine ⟨⟨[("big", bigGalaxy)]⟩, 100 * specAreaSum [("big", bigGalaxy)] / (4 * Real.pi),
      gen _ (by simp [bigGalaxy_area]), ?_⟩
    have hsum : specAreaSum [("big", bigGalaxy)] = Real.pi ^ 3 := by
      simp [specAreaSum, bigGalaxy_area, F.toReal]
    rw [hsum]
    have heq : 100 * Real.pi ^ 3 / (4 * Real.pi) = 25 * Real.pi ^ 2 := by
      field_simp
      ring
    rw [heq]
    nlinarith [Real.pi_gt_three]

theorem c4_percentage_sky_cover_witness :
    unitGalaxy.area = F.fin (Real.pi * (1 * (Real.pi / 180)) * (1 * (Real.pi / 180))) ∧
    LocalVolume.percentage_sky_cover ⟨[("unit", unitGalaxy)]⟩ =
      F.fin (100 * (Real.pi * (1 * (Real.pi / 180)) * (1 * (Real.pi / 180))) /
        (4 * Real.pi)) := by
  have harea : unitGalaxy.area =
      F.fin (Real.pi * (1 * (Real.pi / 180)) * (1 * (Real.pi / 180))) := by
    rw [Galaxy.area, unitGalaxy_a, unitGalaxy_b]
    rfl
  exact ⟨harea, c4_percentage_sky_cover.2.2.1 ("unit") unitGalaxy _ harea⟩

/-- A concrete galaxy with a finite radius but a NaN axis ratio, as produced
by a row whose ratio column held the missing sentinel. -/
noncomputable def ratioNanGalaxy : Galaxy :=
  { name := "rnan", distance := F.fin 1, center_ra := F.fin 0, center_dec := F.fin 0,
    radius := F.fin 60, ratio := F.nan, angle := F.fin 0 }

theorem ratioNanGalaxy_a : ratioNanGalaxy.a = F.fin 1 := by
  rw [Galaxy.a]
  show F.fdiv (F.fin 60) (F.fin 60) = F.fin 1
  rw [F.fdiv_fin _ (by norm_num : (60:ℝ) ≠ 0)]
  norm_num

/-- Claim C7 fails as stated: a galaxy whose `ratio` is NaN but whose
`radius` is finite has a finite (non-NaN) `a = radius / 60`, contradicting
the claim that NaN `radius` or `ratio` makes `a` and `b` both NaN. -/
theorem c7_counterexample :
    ratioNanGalaxy.ratio = F.nan ∧ ratioNanGalaxy.a = F.fin 1 ∧ F.fin (1:ℝ) ≠ F.nan :=
  ⟨rfl, ratioNanGalaxy_a, by simp⟩

/-- Claim C7, amended: the derived fields are `a = radius / 60`,
`b = a * ratio`, `area = pi * rad(a) * rad(b)`; for finite `radius >= 0` and
`ratio` in `(0, 1]` the invariant `0 <= b <= a` holds; a NaN `radius` makes
`a` and `b` both NaN, while a NaN `ratio` makes `b` NaN (`a` stays finite
when `radius` is). -/
theorem c7_derived_fields_amended :
    (∀ g : Galaxy, g.a = F.fdiv g.radius (F.fin 60) ∧ g.b = F.fmul g.a g.ratio ∧
        g.area = F.fmul (F.fmul F.fpi (F.deg2rad g.a)) (F.deg2rad g.b)) ∧
    (∀ (g : Galaxy) (r q : ℝ), g.radius = F.fin r → g.ratio = F.fin q →
        0 ≤ r → 0 < q → q ≤ 1 →
        ∃ av bv, g.a = F.fin av ∧ g.b = F.fin bv ∧ 0 ≤ av ∧ 0 ≤ bv ∧ bv ≤ av) ∧
    (∀ g : Galaxy, g.radius = F.nan → g.a = F.nan ∧ g.b = F.nan) ∧
    (∀ g : Galaxy, g.ratio = F.nan → g.b = F.nan) := by
  refine ⟨fun g => ⟨rfl, rfl, rfl⟩, ?_, ?_, ?_⟩
  · intro g r q hr hq h0r h0q hq1
    have ha : g.a = F.fin (r / 60) := by
      rw [Galaxy.a, hr, F.fdiv_fin _ (by norm_num : (60:ℝ) ≠ 0)]
    have hb : g.b = F.fin (r / 60 * q) := by
      rw [Galaxy.b, ha, hq, F.fmul_fin]
    have hav : 0 ≤ r / 60 := by positivity
    refine ⟨r / 60, r / 60 * q, ha, hb, hav, by positivity, ?_⟩
    nlinarith
  · intro g h
    have ha : g.a = F.nan := by rw [Galaxy.a, h]; simp
    exact ⟨ha, by rw [Galaxy.b, ha]; simp⟩
  · intro g h
    rw [Galaxy.b, h]
    simp

theorem c7_derived_fields_amended_witness :
    unitGalaxy.radius = F.fin 60 ∧ unitGalaxy.ratio = F.fin 1 ∧
    (0:ℝ) ≤ 60 ∧ (0:ℝ) < 1 ∧ (1:ℝ) ≤ 1 ∧
    (∃ av bv, unitGalaxy.a = F.fin av ∧ unitGalaxy.b = F.fin bv ∧
        0 ≤ av ∧ 0 ≤ bv ∧ bv ≤ av) ∧
    nanGalaxy.radius = F.nan ∧ nanGalaxy.a = F.nan ∧ nanGalaxy.b = F.nan :=
  ⟨rfl, rfl, by norm_num, by norm_num, le_refl 1,
   c7_derived_fields_amended.2.1 unitGalaxy 60 1 rfl rfl (by norm_num) (by norm_num)
     (le_refl 1),
   rfl, (c7_derived_fields_amended.2.2.1 nanGalaxy rfl).1,
   (c7_derived_fields_amended.2.2.1 nanGalaxy rfl).2⟩

/-- A concrete galaxy with finite positive axes whose position angle is NaN. -/
noncomputable def nanAngleGalaxy : Galaxy :=
  { name := "nanangle", distance := F.fin 1, center_ra := F.fin 0, center_dec := F.fin 0,
    radius := F.fin 60, ratio := F.fin 1, angle := F.nan }

theorem nanAngleGalaxy_a : nanAngleGalaxy.a = F.fin 1 := by
  rw [Galaxy.a]
  show F.fdiv (F.fin 60) (F.fin 60) = F.fin 1
  rw [F.fdiv_fin _ (by norm_num : (60:ℝ) ≠ 0)]
  norm_num

theorem nanAngleGalaxy_b : nanAngleGalaxy.b = F.fin 1 := by
  rw [Galaxy.b, nanAngleGalaxy_a]
  show F.fmul (F.fin 1) (F.fin 1) = F.fin 1
  simp

/-- Claim C8 fails as stated: a galaxy with finite positive `a` and `b` but
NaN `angle` does not contain its own center, because `cos(pi - rad(angle))`
is NaN and NaN poisons the whole comparison. -/
theorem c8_counterexample :
    nanAngleGalaxy.a = F.fin 1 ∧ nanAngleGalaxy.b = F.fin 1 ∧ (0:ℝ) < 1 ∧
    nanAngleGalaxy.contains_point (F.fin 0) (F.fin 0) = false := by
  refine ⟨nanAngleGalaxy_a, nanAngleGalaxy_b, by norm_num, ?_⟩
  rw [contains_point_eq_fle, specNormRadius]
  simp [show nanAngleGalaxy.angle = F.nan from rfl]

/-- Claim C8, amended: for every galaxy with finite center coordinates,
finite angle, and finite positive `a` and `b`, the center of the ellipse is
contained in its own ellipse. -/
theorem c8_center_contained_amended (g : Galaxy) (cra cdec θ av bv : ℝ)
    (h1 : g.center_ra = F.fin cra) (h2 : g.center_dec = F.fin cdec)
    (h3 : g.angle = F.fin θ) (h4 : g.a = F.fin av) (h5 : g.b = F.fin bv)
    (hav : 0 < av) (hbv : 0 < bv) :
    g.contains_point (F.fin cra) (F.fin cdec) = true := by
  rw [contains_point_fin_true_iff g cra cdec h1 h2 h3 h4 h5 (ne_of_gt hav) (ne_of_gt hbv)]
  simp

theorem c8_center_contained_amended_witness :
    unitGalaxy.center_ra = F.fin 0 ∧ unitGalaxy.center_dec = F.fin 0 ∧
    unitGalaxy.angle = F.fin 0 ∧ unitGalaxy.a = F.fin 1 ∧ unitGalaxy.b = F.fin 1 ∧
    (0:ℝ) < 1 ∧ unitGalaxy.contains_point (F.fin 0) (F.fin 0) = true :=
  ⟨rfl, rfl, rfl, unitGalaxy_a, unitGalaxy_b, by norm_num,
   c8_center_contained_amended unitGalaxy 0 0 0 1 1 rfl rfl rfl unitGalaxy_a unitGalaxy_b
     (by norm_num) (by norm_num)⟩

/-- Claim C9: looking up a name that is not a key of the galaxy mapping
fails with a distinct not-found error; a present name returns its galaxy
(never a default). -/
theorem c9_unknown_name_lookup :
    (∀ (lv : LocalVolume) (name : String),
        (∀ p ∈ lv.galaxies, p.1 ≠ name) →
        lv.getattr name = Except.error (AttrError.notFound name)) ∧
    (∀ (lv : LocalVolume) (name : String) (p : String × Galaxy),
        lv.galaxies.find? (fun q => q.1 = name) = some p →
        lv.getattr name = Except.ok p.2) := by
  constructor
  · intro lv name h
    rw [LocalVolume.getattr]
    have hnone : lv.galaxies.find? (fun q => q.1 = name) = none := by
      rw [List.find?_eq_none]
      intro x hx
      simpa using h x hx
    rw [hnone]
  · intro lv name p hp
    rw [LocalVolume.getattr, hp]

theorem c9_unknown_name_lookup_witness :
    (∀ p ∈ ([] : List (String × Galaxy)), p.1 ≠ ("NGC1234" : String)) ∧
    LocalVolume.getattr ⟨[]⟩ ("NGC1234") = Except.error (AttrError.notFound ("NGC1234")) :=
  ⟨by simp, c9_unknown_name_lookup.1 ⟨[]⟩ ("NGC1234") (by simp)⟩

theorem pysplit_ne_nil (sep : Char) (l : List Char) : pysplit sep l ≠ [] := by
  cases l with
  | nil => simp [pysplit]
  | cons c cs =>
      rw [pysplit]
      rcases h : pysplit sep cs with _ | ⟨h1, t1⟩
      · simp
      · split_ifs <;> simp

theorem pysplit_no_sep {sep : Char} {b : List Char} (hb : sep ∉ b) :
    pysplit sep b = [b] := by
  induction b with
  | nil => rfl
  | cons c cs ih =>
      have hc : c ≠ sep := fun h => hb (h ▸ List.mem_cons_self c cs)
      have hcs : sep ∉ cs := fun h => hb (List.mem_cons_of_mem c h)
      rw [pysplit, ih hcs]
      simp [hc]

theorem pysplit_append {sep : Char} {a : List Char} (ha : sep ∉ a) (b : List Char) :
    pysplit sep (a ++ sep :: b) = a :: pysplit sep b := by
  induction a with
  | nil =>
      rcases h : pysplit sep b with _ | ⟨h1, t1⟩
      · exact absurd h (pysplit_ne_nil sep b)
      · rw [List.nil_append, pysplit, h]
        simp
  | cons c cs ih =>
      have hc : c ≠ sep := fun h => ha (h ▸ List.mem_cons_self c cs)
      have hcs : sep ∉ cs := fun h => ha (List.mem_cons_of_mem c h)
      rw [List.cons_append, pysplit, ih hcs]
      simp [hc]

/-- Claim C5: `parse_skycoord` splits the packed token at the sign character
(`+` or `-`: everything before it is the RA token, everything after is the
declination token prefixed by the sign) and splices the pieces by pure
string manipulation.  For a `+`-sign token the split is on `+` whenever one
is present; for a `-`-sign token it is on `-` when no `+` occurs.  In
particular `parse_skycoord("014813-300327", 3.5)` yields RA string
`"01h48min13s"`, declination string `"-30.0327"`, distance `3.5` Mpc, ICRS
frame. -/
theorem c5_parse_skycoord :
    (∀ (a b : List Char) (d : ℝ), '+' ∉ a → '+' ∉ b →
        parse_skycoord (a ++ '+' :: b) d =
          some { ra_string := a.take 2 ++ ['h'] ++ (a.drop 2).take 2 ++ ['m', 'i', 'n']
                   ++ a.drop 4 ++ ['s'],
                 dec_str := ['+'] ++ b.take 2 ++ ['.'] ++ b.drop 2,
                 distance := d,
                 frame := ['i', 'c', 'r', 's'] }) ∧
    (∀ (a b : List Char) (d : ℝ), '+' ∉ a → '+' ∉ b → '-' ∉ a → '-' ∉ b →
        parse_skycoord (a ++ '-' :: b) d =
          some { ra_string := a.take 2 ++ ['h'] ++ (a.drop 2).take 2 ++ ['m', 'i', 'n']
                   ++ a.drop 4 ++ ['s'],
                 dec_str := ['-'] ++ b.take 2 ++ ['.'] ++ b.drop 2,
                 distance := d,
                 frame := ['i', 'c', 'r', 's'] }) ∧
    (parse_skycoord ("014813-300327".toList) 3.5 =
      some { ra_string := "01h48min13s".toList, dec_str := "-30.0327".toList,
             distance := 3.5, frame := "icrs".toList }) := by
  refine ⟨?_, ?_, ?_⟩
  · intro a b d hpa hpb
    have hplus : '+' ∈ a ++ '+' :: b :=
      List.mem_append_right a (List.mem_cons_self '+' b)
    rw [parse_skycoord]
    rw [if_pos hplus, pysplit_append hpa b, pysplit_no_sep hpb]
  · intro a b d hpa hpb hma hmb
    have hplus : '+' ∉ a ++ '-' :: b := by
      simp [List.mem_append, hpa, hpb]
    rw [parse_skycoord]
    rw [if_neg hplus, pysplit_append hma b, pysplit_no_sep hmb]
  · rfl

theorem c5_parse_skycoord_witness :
    ('+' ∉ "014813".toList) ∧ ('+' ∉ "300327".toList) ∧
    ('-' ∉ "014813".toList) ∧ ('-' ∉ "300327".toList) ∧
    parse_skycoord ("014813".toList ++ '+' :: "300327".toList) 3.5 =
      some { ra_string := "014813".toList.take 2 ++ ['h']
               ++ ("014813".toList.drop 2).take 2 ++ ['m', 'i', 'n']
               ++ "014813".toList.drop 4 ++ ['s'],
             dec_str := ['+'] ++ "300327".toList.take 2 ++ ['.'] ++ "300327".toList.drop 2,
             distance := 3.5,
             frame := ['i', 'c', 'r', 's'] } ∧
    parse_skycoord ("014813".toList ++ '-' :: "300327".toList) 3.5 =
      some { ra_string := "014813".toList.take 2 ++ ['h']
               ++ ("014813".toList.drop 2).take 2 ++ ['m', 'i', 'n']
               ++ "014813".toList.drop 4 ++ ['s'],
             dec_str := ['-'] ++ "300327".toList.take 2 ++ ['.'] ++ "300327".toList.drop 2,
             distance := 3.5,
             frame := ['i', 'c', 'r', 's'] } :=
  ⟨by decide, by decide, by decide, by decide,
   c5_parse_skycoord.1 ("014813".toList) ("300327".toList) 3.5 (by decide) (by decide),
   c5_parse_skycoord.2.1 ("014813".toList) ("300327".toList) 3.5 (by decide) (by decide)
     (by decide) (by decide)⟩

theorem sampleAnglesGo_fst (rng : NumpyRandom) :
    ∀ (l : List (String × Galaxy)) (s : ℕ),
      List.map Prod.fst (sampleAnglesGo rng l s).1 = List.map Prod.fst l := by
  intro l
  induction l with
  | nil => intro s; rfl
  | cons q rest ih =>
      intro s
      obtain ⟨n, g⟩ := q
      rw [sampleAnglesGo]
      simp [ih]

theorem sampleAnglesGo_angles (rng : NumpyRandom)
    (hr : ∀ st, 0 ≤ (rng.uniform 0 360 st).1 ∧ (rng.uniform 0 360 st).1 < 360) :
    ∀ (l : List (String × Galaxy)) (s : ℕ) (p : String × Galaxy),
      p ∈ (sampleAnglesGo rng l s).1 → ∃ v, p.2.angle = F.fin v ∧ 0 ≤ v ∧ v < 360 := by
  intro l
  induction l with
  | nil => intro s p hp; simp [sampleAnglesGo] at hp
  | cons q rest ih =>
      intro s p hp
      obtain ⟨n, g⟩ := q
      rw [sampleAnglesGo] at hp
      simp only [List.mem_cons] at hp
      rcases hp with hp | hp
      · refine ⟨(rng.uniform 0 360 s).1, ?_, (hr s).1, (hr s).2⟩
        rw [hp]
      · exact ih _ p hp

/-- Claim C6: `sample_angles` with a non-falsy seed reseeds the random
source first, so the produced catalog does not depend on the prior random
state (two identically seeded runs agree draw for draw); names are kept in
insertion order and every assigned angle is a uniform draw from `[0, 360)`
whenever the underlying uniform draw respects its bounds. -/
theorem c6_sample_angles_seeded_deterministic :
    (∀ (rng : NumpyRandom) (lv : LocalVolume) (k : ℕ) (s1 s2 : ℕ), k ≠ 0 →
        (LocalVolume.sample_angles rng lv (some k) s1).1 =
          (LocalVolume.sample_angles rng lv (some k) s2).1) ∧
    (∀ (rng : NumpyRandom) (lv : LocalVolume) (seed : Option ℕ) (s : ℕ),
        List.map Prod.fst ((LocalVolume.sample_angles rng lv seed s).1).galaxies =
          List.map Prod.fst lv.galaxies) ∧
    (∀ rng : NumpyRandom,
        (∀ st, 0 ≤ (rng.uniform 0 360 st).1 ∧ (rng.uniform 0 360 st).1 < 360) →
        ∀ (lv : LocalVolume) (seed : Option ℕ) (s : ℕ) (p : String × Galaxy),
          p ∈ ((LocalVolume.sample_angles rng lv seed s).1).galaxies →
          ∃ v, p.2.angle = F.fin v ∧ 0 ≤ v ∧ v < 360) := by
  refine ⟨?_, ?_, ?_⟩
  · intro rng lv k s1 s2 hk
    rw [LocalVolume.sample_angles, LocalVolume.sample_angles]
    simp [hk]
  · intro rng lv seed s
    rw [LocalVolume.sample_angles.eq_def]
    exact sampleAnglesGo_fst rng lv.galaxies _
  · intro rng hr lv seed s p hp
    rw [LocalVolume.sample_angles.eq_def] at hp
    exact sampleAnglesGo_angles rng hr lv.galaxies _ p hp

/-- A concrete deterministic random source used to instantiate hypotheses:
`uniform` returns the lower bound and advances the state. -/
def constRandom : NumpyRandom := ⟨fun lo _ s => (lo, s + 1), fun k => k⟩

theorem c6_sample_angles_seeded_deterministic_witness :
    (7:ℕ) ≠ 0 ∧
    (LocalVolume.sample_angles constRandom ⟨[("u", unitGalaxy)]⟩ (some 7) 0).1 =
      (LocalVolume.sample_angles constRandom ⟨[("u", unitGalaxy)]⟩ (some 7) 5).1 ∧
    (∀ st, 0 ≤ (constRandom.uniform 0 360 st).1 ∧ (constRandom.uniform 0 360 st).1 < 360) ∧
    (∃ v, (("u", { unitGalaxy with angle := F.fin 0 }) : String × Galaxy).2.angle = F.fin v ∧
        0 ≤ v ∧ v < 360) := by
  have hk : (7:ℕ) ≠ 0 := by norm_num
  have hr : ∀ st, 0 ≤ (constRandom.uniform 0 360 st).1 ∧
      (constRandom.uniform 0 360 st).1 < 360 := by
    intro st
    constructor <;> norm_num [constRandom]
  have hmem : (("u", { unitGalaxy with angle := F.fin 0 }) : String × Galaxy) ∈
      ((LocalVolume.sample_angles constRandom ⟨[("u", unitGalaxy)]⟩ (some 7) 0).1).galaxies := by
    simp [LocalVolume.sample_angles, sampleAnglesGo, constRandom]
  exact ⟨hk,
    c6_sample_angles_seeded_deterministic.1 constRandom ⟨[("u", unitGalaxy)]⟩ 7 0 5 hk,
    hr,
    c6_sample_angles_seeded_deterministic.2.2 constRandom hr ⟨[("u", unitGalaxy)]⟩
      (some 7) 0 _ hmem⟩

end GrbShader
